import Mathlib

/-!
# AIproperty backend: user controller and prompt preparation

A shallow embedding of `backend/controller/Usercontroller.js` and of the two
data-preparation helpers of `backend/services/aiService.js`.

* The document store is the list of user documents in insertion order;
  `findOne` returns the first match together with its position, and `save`
  writes a document back at that position.
* Request fields are JavaScript strings, given as their UTF-16 code units.
* The libraries (bcryptjs, jsonwebtoken, validator) and the process
  configuration are the fields of `Env`; the values a call draws from outside
  (clock, salt, fresh id, random bytes, outcome of the mail transport) are the
  fields of `Ctx`.
* Statements about stored users take the store with the invariants the
  handlers maintain (`UniqueEmails`, `ValidEmails`, `DistinctTokens`);
  `built_store_invariants` shows them for every store built from the empty one.
* With string fields and a store that answers, no modelled operation throws, so
  the `catch` branches of the handlers are not entered; what they would send
  is `serverError` and, for a duplicate-key error in `register`,
  `duplicateKeyError`.
-/

namespace AIproperty

/-- A JavaScript string, as its sequence of UTF-16 code units. -/
abbrev JSString := List Nat

/-- UTF-16 code units of one character. -/
def utf16 (c : Char) : List Nat :=
  if c.toNat < 65536 then [c.toNat]
  else [55296 + (c.toNat - 65536) / 1024, 56320 + (c.toNat - 65536) % 1024]

/-- The JavaScript string written by a source literal. -/
def lit (s : String) : JSString := s.toList.flatMap utf16

/-- JSON values sent in response bodies. -/
inductive Json where
  | null
  | bool (b : Bool)
  | num (n : Nat)
  | str (s : JSString)
  | arr (items : List Json)
  | obj (fields : List (String × Json))

/-- What `res.status(code).json(body)` sends. -/
structure Response where
  status : Nat
  body : Json

/-- Value of the own field `key` of a JSON object. -/
def Json.field (key : String) : Json → Option Json
  | .obj fields => fields.lookup key
  | _ => none

/-- The body is a JSON object whose `success` field is a boolean. -/
def Json.hasSuccess (j : Json) : Bool :=
  match j.field "success" with
  | some (.bool _) => true
  | _ => false

/-- The body is a JSON object with a string `message` field. -/
def Json.hasMessage (j : Json) : Bool :=
  match j.field "message" with
  | some (.str _) => true
  | _ => false

/-- A user document. The reset fields are absent (`none`) unless a reset is pending. -/
structure User where
  id : Nat
  name : JSString
  email : JSString
  password : JSString
  resetToken : Option JSString
  resetTokenExpire : Option Nat
deriving DecidableEq, Repr

/-- The user collection, in insertion order. -/
abbrev Store := List User

/-- Query `userModel.findOne(filter)`: the first matching document and its position. -/
def findOne (p : User → Bool) : Store → Option (Nat × User)
  | [] => none
  | u :: us => if p u then some (0, u) else (findOne p us).map (fun r => (r.1 + 1, r.2))

/-- Call `doc.save()` for a document obtained from `findOne` at position `i`. -/
def save (i : Nat) (u : User) (s : Store) : Store := s.set i u

/-- Call `newUser.save()` for a new document: it is appended to the collection. -/
def insert (u : User) (s : Store) : Store := s ++ [u]

/-- Payload of a session token. -/
inductive Payload where
  | id (id : Nat)
  | email (email : JSString)
deriving DecidableEq, Repr

/-- Libraries and process configuration. -/
structure Env where
  /-- Library call `bcrypt.hash(password, 10)` with the salt drawn for the call. -/
  hash : JSString → Nat → JSString
  /-- Library call `bcrypt.compare(password, digest)`. -/
  compare : JSString → JSString → Bool
  /-- Library call `validator.isEmail`. -/
  isEmail : JSString → Bool
  /-- Library call `jwt.sign(payload, process.env.JWT_SECRET, expiry)` issued at a time. -/
  sign : Payload → String → Nat → JSString
  /-- Setting `process.env.ADMIN_EMAIL`. -/
  ADMIN_EMAIL : Option JSString
  /-- Setting `process.env.ADMIN_PASSWORD`. -/
  ADMIN_PASSWORD : Option JSString

/-- The mail transport during one call: `transporter` is null, or `sendMail`
resolves, or `sendMail` rejects. -/
inductive Mail where
  | disabled
  | sent
  | failed
deriving DecidableEq, Repr

/-- What one call draws from outside the handler. -/
structure Ctx where
  /-- Clock reading `Date.now()`. -/
  now : Nat
  /-- Salt generated by `bcrypt.hash`. -/
  salt : Nat
  /-- The `_id` given to a new document. -/
  newId : Nat
  /-- Result of `crypto.randomBytes(20).toString("hex")`. -/
  randomHex : JSString
  /-- Behaviour of the mail transport. -/
  mail : Mail

/-- Function `createtoken(id)`. -/
def createtoken (env : Env) (now : Nat) (id : Nat) : JSString :=
  env.sign (.id id) "30d" now

/-- Body of a failure response: the message and `success: false`. -/
def failureBody (message : String) : Json :=
  .obj [("message", .str (lit message)), ("success", .bool false)]

/-- Name and email of a user, as sent by `login` and `register`. -/
def publicUser (name email : JSString) : Json :=
  .obj [("name", .str name), ("email", .str email)]

/-- Handler `login`. -/
def login (env : Env) (c : Ctx) (email password : JSString) (s : Store) : Response × Store :=
  match findOne (fun u => u.email = email) s with
  | none => (⟨404, failureBody "Email not found"⟩, s)
  | some (_, Registeruser) =>
    if env.compare password Registeruser.password then
      (⟨200, .obj [("token", .str (createtoken env c.now Registeruser.id)),
                   ("user", publicUser Registeruser.name Registeruser.email),
                   ("success", .bool true)]⟩, s)
    else
      (⟨401, failureBody "Invalid password"⟩, s)

/-- Handler `register`. The welcome mail is sent after the save and its outcome is only logged. -/
def register (env : Env) (c : Ctx) (name email password : JSString) (s : Store) :
    Response × Store :=
  if name.isEmpty || email.isEmpty || password.isEmpty then
    (⟨400, failureBody "All fields are required"⟩, s)
  else if !env.isEmail email then
    (⟨400, failureBody "Invalid email"⟩, s)
  else
    match findOne (fun u => u.email = email) s with
    | some _ => (⟨409, failureBody "Email already registered"⟩, s)
    | none =>
      let hashedPassword := env.hash password c.salt
      let newUser : User := ⟨c.newId, name, email, hashedPassword, none, none⟩
      let s1 := insert newUser s
      let token := createtoken env c.now newUser.id
      match c.mail with
      | .disabled | .sent | .failed =>
        (⟨201, .obj [("token", .str token),
                     ("user", publicUser newUser.name newUser.email),
                     ("success", .bool true)]⟩, s1)

/-- Handler `forgotpassword`. The token is saved before the mail is attempted. -/
def forgotpassword (env : Env) (c : Ctx) (email : JSString) (s : Store) : Response × Store :=
  if email.isEmpty || !env.isEmail email then
    (⟨400, failureBody "Valid email is required"⟩, s)
  else
    match findOne (fun u => u.email = email) s with
    | none => (⟨404, failureBody "Email not found"⟩, s)
    | some (i, user) =>
      let resetToken := c.randomHex
      let user1 : User :=
        { user with resetToken := some resetToken,
                    resetTokenExpire := some (c.now + 10 * 60 * 1000) }
      let s1 := save i user1 s
      match c.mail with
      | .failed => (⟨500, failureBody "Failed to send email"⟩, s1)
      | .sent | .disabled =>
        (⟨200, .obj [("message", .str (lit "Email sent")), ("success", .bool true)]⟩, s1)

/-- The filter of `resetpassword`: `resetToken` equals `token` and `resetTokenExpire` is
greater than `now`. -/
def pendingReset (token : JSString) (now : Nat) (u : User) : Bool :=
  decide (u.resetToken = some token) &&
    (match u.resetTokenExpire with
     | some e => decide (e > now)
     | none => false)

/-- Handler `resetpassword`. -/
def resetpassword (env : Env) (c : Ctx) (token password : JSString) (s : Store) :
    Response × Store :=
  if password.isEmpty || decide (password.length < 6) then
    (⟨400, failureBody "Password must be at least 6 characters"⟩, s)
  else
    match findOne (pendingReset token c.now) s with
    | none => (⟨400, failureBody "Invalid or expired token"⟩, s)
    | some (i, user) =>
      let user1 : User :=
        { user with password := env.hash password c.salt,
                    resetToken := none,
                    resetTokenExpire := none }
      (⟨200, .obj [("message", .str (lit "Password reset successful")),
                   ("success", .bool true)]⟩, save i user1 s)

/-- Handler `adminlogin`. -/
def adminlogin (env : Env) (c : Ctx) (email password : JSString) (s : Store) :
    Response × Store :=
  if some email = env.ADMIN_EMAIL && some password = env.ADMIN_PASSWORD then
    (⟨200, .obj [("token", .str (env.sign (.email email) "1h" c.now)),
                 ("success", .bool true)]⟩, s)
  else
    (⟨401, failureBody "Invalid credentials"⟩, s)

/-- Handler `logout`. -/
def logout (s : Store) : Response × Store :=
  (⟨200, .obj [("message", .str (lit "Logged out")), ("success", .bool true)]⟩, s)

/-- Modelled from the spec: the user schema (`models/Usermodel.js`) is not part of the
sources; the document sent by `getname` has the fields of the data model, `password`
removed by `select("-password")`, and absent reset fields are not serialised. -/
def userJson (u : User) : Json :=
  .obj ([("_id", .num u.id), ("name", .str u.name), ("email", .str u.email)]
    ++ (match u.resetToken with
        | some t => [("resetToken", .str t)]
        | none => [])
    ++ (match u.resetTokenExpire with
        | some e => [("resetTokenExpire", .num e)]
        | none => []))

/-- Handler `getname`, for the subject id the authentication middleware put in `req.user.id`.
`findById` resolves to null when no document has the id. -/
def getname (id : Nat) (s : Store) : Response × Store :=
  match findOne (fun u => u.id = id) s with
  | some (_, user) => (⟨200, userJson user⟩, s)
  | none => (⟨200, .null⟩, s)

/-- The response of the `catch` branch shared by the handlers. -/
def serverError : Response := ⟨500, failureBody "Server error"⟩

/-- The response of the `catch` branch of `register` for error code 11000. -/
def duplicateKeyError : Response := ⟨409, failureBody "Email already exists"⟩

/-- A request to one of the exported handlers. -/
inductive Request where
  | login (email password : JSString)
  | register (name email password : JSString)
  | forgotpassword (email : JSString)
  | resetpassword (token password : JSString)
  | adminlogin (email password : JSString)
  | logout
  | getname (id : Nat)

/-- One call of an exported handler. -/
def handle (env : Env) (c : Ctx) : Request → Store → Response × Store
  | .login email password, s => login env c email password s
  | .register name email password, s => register env c name email password s
  | .forgotpassword email, s => forgotpassword env c email s
  | .resetpassword token password, s => resetpassword env c token password s
  | .adminlogin email password, s => adminlogin env c email password s
  | .logout, s => logout s
  | .getname id, s => getname id s

/-- The context and body of one `register` call. -/
structure RegisterCall where
  ctx : Ctx
  name : JSString
  email : JSString
  password : JSString

/-- A sequence of `register` calls on the store; the responses are dropped. -/
def registerAll (env : Env) : List RegisterCall → Store → Store
  | [], s => s
  | call :: rest, s =>
    registerAll env rest (register env call.ctx call.name call.email call.password s).2

/-! ## `aiService.js` -/

/-- A property record as handed to `_preparePropertyData`. `amenities` is `some` exactly
when `Array.isArray` holds of it, `description` is `none` when the field is absent. -/
structure Property where
  building_name : Json
  property_type : Json
  location_address : Json
  price : Json
  area_sqft : Json
  amenities : Option (List Json)
  description : Option JSString

/-- A record built by `_preparePropertyData`. -/
structure PreparedProperty where
  building_name : Json
  property_type : Json
  location_address : Json
  price : Json
  area_sqft : Json
  amenities : List Json
  description : JSString

/-- The `description` expression of `_preparePropertyData`. -/
def prepareDescription : Option JSString → JSString
  | none => []
  | some d =>
    if d.isEmpty then []
    else d.take 150 ++ (if d.length > 150 then lit "..." else [])

/-- Method `_preparePropertyData(properties, maxProperties)`; `maxProperties` defaults to 3. -/
def _preparePropertyData (properties : List Property) (maxProperties : Nat) :
    List PreparedProperty :=
  let limitedProperties := properties.take maxProperties
  limitedProperties.map fun property =>
    { building_name := property.building_name
      property_type := property.property_type
      location_address := property.location_address
      price := property.price
      area_sqft := property.area_sqft
      amenities :=
        match property.amenities with
        | some a => a.take 5
        | none => []
      description := prepareDescription property.description }

/-- Method `_prepareLocationData(locations, maxLocations)`; `maxLocations` defaults to 5. -/
def _prepareLocationData {α : Type} (locations : List α) (maxLocations : Nat) : List α :=
  locations.take maxLocations

/-! ## Assumptions on the libraries and store invariants -/

/-- A digest verifies the password it was produced from (`bcrypt.compare` after
`bcrypt.hash`). -/
def Env.Verifies (env : Env) : Prop :=
  ∀ password salt, env.compare password (env.hash password salt) = true

/-- Modelled from the spec: the user schema (`models/Usermodel.js`) is not part of the
sources; the store enforces that no two user documents share an email, which is the index
whose duplicate-key error (code 11000) the `catch` branch of `register` answers with 409. -/
def UniqueEmails (s : Store) : Prop := (s.map fun u => u.email).Nodup

instance (s : Store) : Decidable (UniqueEmails s) :=
  inferInstanceAs (Decidable (List.Nodup (List.map (fun u : User => u.email) s)))

/-- Every stored email is non-empty and accepted by the validator: `register`, the only
writer of `email`, checks both before it inserts. -/
def ValidEmails (env : Env) (s : Store) : Prop :=
  ∀ u ∈ s, u.email ≠ [] ∧ env.isEmail u.email = true

/-- No two user documents hold the same reset token: `forgotpassword`, the only writer of
`resetToken`, stores a new draw of `crypto.randomBytes(20)`. -/
def DistinctTokens (s : Store) : Prop := (s.filterMap fun u => u.resetToken).Nodup

instance (s : Store) : Decidable (DistinctTokens s) :=
  inferInstanceAs (Decidable (List.Nodup (List.filterMap (fun u : User => u.resetToken) s)))

/-- A sequence of handler calls on the store; the responses are dropped. -/
def handleAll (env : Env) : List (Ctx × Request) → Store → Store
  | [], s => s
  | call :: rest, s => handleAll env rest (handle env call.1 call.2 s).2

/-- Each call of the sequence draws random bytes that no stored user holds as reset token
at the time of the call. -/
def FreshDraws (env : Env) : List (Ctx × Request) → Store → Prop
  | [], _ => True
  | call :: rest, s =>
    call.1.randomHex ∉ (s.filterMap fun u => u.resetToken) ∧
      FreshDraws env rest (handle env call.1 call.2 s).2

/-- In every user document `resetToken` and `resetTokenExpire` are both present or both
absent. -/
def Paired (s : Store) : Prop :=
  ∀ u ∈ s, u.resetToken.isSome = u.resetTokenExpire.isSome

/-! ## Sample data for the closed statements -/

/-- A small instance of the libraries: the digest is the salt followed by the password,
an address is accepted when it contains `@`, a token lists its subject and issue time. -/
def demoEnv : Env where
  hash := fun password salt => salt :: password
  compare := fun password digest => decide (digest.tail = password)
  isEmail := fun email => email.contains 64
  sign := fun payload _ now =>
    match payload with
    | .id id => [id, now]
    | .email email => email ++ [now]
  ADMIN_EMAIL := some (lit "admin@example.com")
  ADMIN_PASSWORD := some (lit "admin123")

/-- A call context at time `now` with the given mail behaviour. -/
def demoCtx (now : Nat) (mail : Mail) : Ctx := ⟨now, 7, 100, lit "c0ffee", mail⟩

/-- Asha, with password `secret1` and no pending reset. -/
def asha : User := ⟨1, lit "Asha", lit "asha@example.com", 7 :: lit "secret1", none, none⟩

/-- Asha with a reset for token `c0ffee` pending until time 5000. -/
def ashaPending : User := { asha with resetToken := some (lit "c0ffee"), resetTokenExpire := some 5000 }

/-- Ravi, with a reset for token `facade` pending until time 5000. -/
def raviPending : User :=
  ⟨2, lit "Ravi", lit "ravi@example.com", 7 :: lit "hunter22", some (lit "facade"), some 5000⟩

/-- A string of 200 code units. -/
def longName : JSString := List.replicate 200 97

/-- A property record whose `building_name` is `longName`; the other fields are empty. -/
def tower : Property := ⟨.str longName, .null, .null, .null, .null, none, none⟩

/-- A property record with seven amenities and a description of 151 code units. -/
def villa : Property :=
  ⟨.null, .null, .null, .null, .null,
    some [.num 1, .num 2, .num 3, .num 4, .num 5, .num 6, .num 7],
    some (List.replicate 151 97)⟩

/-! ## Facts about the store operations -/

theorem findOne_eq_none_iff (p : User → Bool) (s : Store) :
    findOne p s = none ↔ ∀ u ∈ s, p u = false := by
  induction s with
  | nil => simp [findOne]
  | cons a as ih => by_cases h : p a = true <;> simp [findOne, h, ih]

theorem findOne_cons_some {p : User → Bool} {a : User} {as : Store} {i : Nat} {u : User}
    (h : findOne p (a :: as) = some (i, u)) :
    (p a = true ∧ i = 0 ∧ u = a) ∨
      (p a = false ∧ ∃ j, i = j + 1 ∧ findOne p as = some (j, u)) := by
  by_cases hp : p a = true
  · left
    simp [findOne, hp] at h
    exact ⟨hp, h.1.symm, h.2.symm⟩
  · right
    simp [findOne, hp] at h
    obtain ⟨j, hj, hi⟩ := h
    exact ⟨by simpa using hp, j, hi.symm, hj⟩

theorem findOne_some_spec {p : User → Bool} {s : Store} {i : Nat} {u : User}
    (h : findOne p s = some (i, u)) :
    s[i]? = some u ∧ p u = true ∧ ∀ j, j < i → ∀ v, s[j]? = some v → p v = false := by
  induction s generalizing i with
  | nil => simp [findOne] at h
  | cons a as ih =>
    rcases findOne_cons_some h with ⟨hp, rfl, rfl⟩ | ⟨hp, j, rfl, hj⟩
    · exact ⟨by simp, hp, fun j hj => absurd hj (Nat.not_lt_zero j)⟩
    · obtain ⟨h1, h2, h3⟩ := ih hj
      refine ⟨by simpa using h1, h2, ?_⟩
      intro k hk v hv
      cases k with
      | zero =>
        simp at hv
        exact hv ▸ hp
      | succ k => exact h3 k (by omega) v (by simpa using hv)

theorem findOne_of_first {p : User → Bool} {s : Store} {i : Nat} {u : User}
    (hi : s[i]? = some u) (hp : p u = true)
    (hfirst : ∀ j, j < i → ∀ v, s[j]? = some v → p v = false) :
    findOne p s = some (i, u) := by
  induction s generalizing i with
  | nil => simp at hi
  | cons a as ih =>
    cases i with
    | zero =>
      simp at hi
      subst hi
      simp [findOne, hp]
    | succ i =>
      have ha : p a = false := hfirst 0 (by omega) a (by simp)
      have := ih (i := i) (by simpa using hi)
        (fun j hj v hv => hfirst (j + 1) (by omega) v (by simpa using hv))
      simp [findOne, ha, this]

theorem no_match_after_set {p q : User → Bool} {s : Store} {i : Nat} {u u1 : User}
    (h : findOne p s = some (i, u)) (hone : (s.filter p).length ≤ 1)
    (hq : q u1 = false) (hqp : ∀ v, q v = true → p v = true) :
    ∀ v ∈ s.set i u1, q v = false := by
  induction s generalizing i with
  | nil => simp [findOne] at h
  | cons a as ih =>
    rcases findOne_cons_some h with ⟨hp, rfl, rfl⟩ | ⟨hp, j, rfl, hj⟩
    · have hnil : as.filter p = [] := by
        simp only [List.filter_cons, hp, if_true, List.length_cons] at hone
        exact List.eq_nil_of_length_eq_zero (by omega)
      intro v hv
      simp only [List.set_cons_zero, List.mem_cons] at hv
      rcases hv with rfl | hv
      · exact hq
      · have hpv : p v = false := by
          have := List.filter_eq_nil_iff.mp hnil v hv
          simpa using this
        cases hqv : q v with
        | false => rfl
        | true => rw [hqp v hqv] at hpv; cases hpv
    · have hone1 : (as.filter p).length ≤ 1 := by
        simpa [List.filter_cons, hp] using hone
      intro v hv
      simp only [List.set_cons_succ, List.mem_cons] at hv
      rcases hv with rfl | hv
      · cases hqv : q v with
        | false => rfl
        | true => rw [hqp v hqv] at hp; cases hp
      · exact ih hj hone1 v hv

theorem pendingReset_mono {t : JSString} {now1 now2 : Nat} (hle : now1 ≤ now2) (v : User)
    (h : pendingReset t now2 v = true) : pendingReset t now1 v = true := by
  unfold pendingReset at h ⊢
  cases he : v.resetTokenExpire with
  | none => simp [he] at h
  | some e =>
    simp only [he, Bool.and_eq_true, decide_eq_true_eq] at h ⊢
    exact ⟨h.1, by omega⟩

theorem isEmpty_eq_false_of_length {password : JSString} (h : 6 ≤ password.length) :
    password.isEmpty = false := by
  cases password with
  | nil => simp at h
  | cons a as => rfl

/-! ## Password reset: consuming a token -/

theorem resetpassword_no_match (env : Env) (c : Ctx) (token password : JSString) (s : Store)
    (hlen : 6 ≤ password.length)
    (hnone : ∀ u ∈ s, pendingReset token c.now u = false) :
    resetpassword env c token password s =
      (⟨400, failureBody "Invalid or expired token"⟩, s) := by
  have hf : findOne (pendingReset token c.now) s = none := (findOne_eq_none_iff _ _).mpr hnone
  have hne := isEmpty_eq_false_of_length hlen
  have hlt : ¬ password.length < 6 := by omega
  simp [resetpassword, hf, hne, hlt]

/-- C2: when every user holding `token` has an expiry at or before the current time,
`resetpassword` with a password of at least 6 code units answers 400 "Invalid or expired
token" and returns the store as it was. -/
theorem resetpassword_expired (env : Env) (c : Ctx) (token password : JSString) (s : Store)
    (hlen : 6 ≤ password.length)
    (hexp : ∀ u ∈ s, u.resetToken = some token →
      ∀ e, u.resetTokenExpire = some e → e ≤ c.now) :
    resetpassword env c token password s =
      (⟨400, failureBody "Invalid or expired token"⟩, s) := by
  apply resetpassword_no_match env c token password s hlen
  intro u hu
  unfold pendingReset
  by_cases ht : u.resetToken = some token
  · cases he : u.resetTokenExpire with
    | none => simp
    | some e =>
      have := hexp u hu ht e he
      simp only [ht, decide_True, Bool.true_and, decide_eq_false_iff_not]
      omega
  · simp [ht]

/-- C2, on a store whose only pending token expires exactly at the current time. -/
theorem resetpassword_expired_witness :
    resetpassword demoEnv (demoCtx 5000 .sent) (lit "c0ffee") (lit "newpass1") [ashaPending] =
      (⟨400, failureBody "Invalid or expired token"⟩, [ashaPending]) :=
  resetpassword_expired demoEnv (demoCtx 5000 .sent) (lit "c0ffee") (lit "newpass1")
    [ashaPending] (by decide) (by simp [ashaPending, asha, demoCtx])

/-- C7, as the code has it: `resetpassword` checks the password before it looks the
token up. A password shorter than 6 code units is answered 400 "Password must be at
least 6 characters" whatever the token, and "Invalid or expired token" is the answer
exactly when the password has at least 6 code units and no user matches the token with
an expiry after the current time; in both cases the store is returned as it was. -/
theorem resetpassword_precedence (env : Env) (c : Ctx) (token password : JSString)
    (s : Store) :
    (password.length < 6 → resetpassword env c token password s =
        (⟨400, failureBody "Password must be at least 6 characters"⟩, s)) ∧
    (6 ≤ password.length → (∀ u ∈ s, pendingReset token c.now u = false) →
        resetpassword env c token password s =
          (⟨400, failureBody "Invalid or expired token"⟩, s)) ∧
    ((resetpassword env c token password s).1.body =
        failureBody "Password must be at least 6 characters" ↔ password.length < 6) ∧
    ((resetpassword env c token password s).1.body =
        failureBody "Invalid or expired token" ↔
      6 ≤ password.length ∧ ∀ u ∈ s, pendingReset token c.now u = false) := by
  have hmsg : lit "Password must be at least 6 characters" ≠ lit "Invalid or expired token" := by
    decide
  by_cases hlt : password.length < 6
  · have hweak : resetpassword env c token password s =
        (⟨400, failureBody "Password must be at least 6 characters"⟩, s) := by
      simp [resetpassword, hlt]
    refine ⟨fun _ => hweak, fun h => absurd hlt (by omega), ?_, ?_⟩
    · simp [hweak, hlt]
    · rw [hweak]
      simp only [failureBody, Json.obj.injEq, List.cons.injEq, Prod.mk.injEq, Json.str.injEq,
        true_and, and_true]
      constructor
      · intro h
        exact absurd h hmsg
      · intro h
        omega
  · have hne : password.isEmpty = false := isEmpty_eq_false_of_length (by omega)
    refine ⟨fun h => absurd h hlt, ?_, ?_, ?_⟩
    · intro _ hnone
      rw [← findOne_eq_none_iff] at hnone
      simp [resetpassword, hnone, hne, hlt]
    · cases hf : findOne (pendingReset token c.now) s with
      | none =>
        simp [resetpassword, hf, hne, hlt, failureBody]
        exact fun h => hmsg h.symm
      | some r =>
        simp [resetpassword, hf, hne, hlt, failureBody]
    · cases hf : findOne (pendingReset token c.now) s with
      | none =>
        have hnone := (findOne_eq_none_iff _ _).mp hf
        simp only [resetpassword, hf, hne, hlt, Bool.false_or, decide_False, Bool.false_eq_true,
          if_false, true_iff]
        exact ⟨by omega, hnone⟩
      | some r =>
        have hsome : ¬ ∀ u ∈ s, pendingReset token c.now u = false := by
          rw [← findOne_eq_none_iff, hf]
          simp
        simp [resetpassword, hf, hne, hlt, failureBody]
        intro _
        simpa using hsome

/-- C7 at a short password: token `c0ffee` is pending, the 3-unit password is refused. -/
theorem resetpassword_precedence_witness :
    resetpassword demoEnv (demoCtx 1000 .sent) (lit "c0ffee") (lit "abc") [ashaPending] =
      (⟨400, failureBody "Password must be at least 6 characters"⟩, [ashaPending]) :=
  (resetpassword_precedence demoEnv (demoCtx 1000 .sent) (lit "c0ffee") (lit "abc")
    [ashaPending]).1 (by decide)

/-- C7 as stated fails: an unknown token with a 3-unit password is answered "Password must
be at least 6 characters", not "Invalid or expired token", although no user matches. -/
theorem resetpassword_unknown_token_short_password :
    findOne (pendingReset (lit "unknown") 1000) [] = none ∧
    resetpassword demoEnv (demoCtx 1000 .sent) (lit "unknown") (lit "abc") [] =
      (⟨400, failureBody "Password must be at least 6 characters"⟩, []) ∧
    (resetpassword demoEnv (demoCtx 1000 .sent) (lit "unknown") (lit "abc") []).1.body ≠
      failureBody "Invalid or expired token" := by
  refine ⟨rfl, rfl, ?_⟩
  have hbody : (resetpassword demoEnv (demoCtx 1000 .sent) (lit "unknown") (lit "abc") []).1.body
      = failureBody "Password must be at least 6 characters" := rfl
  rw [hbody]
  simp only [failureBody, ne_eq, Json.obj.injEq, List.cons.injEq, Prod.mk.injEq, Json.str.injEq,
    true_and, and_true]
  decide

theorem pendingReset_token {t : JSString} {now : Nat} {u : User}
    (h : pendingReset t now u = true) : u.resetToken = some t := by
  unfold pendingReset at h
  simp only [Bool.and_eq_true, decide_eq_true_eq] at h
  exact h.1

theorem distinctTokens_tail {a : User} {as : Store} (h : DistinctTokens (a :: as)) :
    DistinctTokens as := by
  unfold DistinctTokens at h ⊢
  cases ha : a.resetToken with
  | none => simpa [List.filterMap_cons, ha] using h
  | some x =>
    rw [List.filterMap_cons, ha] at h
    exact (List.nodup_cons.mp h).2

theorem pending_at_most_one {s : Store} (h : DistinctTokens s) (t : JSString) (now : Nat) :
    (s.filter (pendingReset t now)).length ≤ 1 := by
  induction s with
  | nil => simp
  | cons a as ih =>
    by_cases hp : pendingReset t now a = true
    · have ha := pendingReset_token hp
      have hnot : t ∉ as.filterMap fun u => u.resetToken := by
        unfold DistinctTokens at h
        rw [List.filterMap_cons, ha] at h
        exact (List.nodup_cons.mp h).1
      have hnil : as.filter (pendingReset t now) = [] := by
        rw [List.filter_eq_nil_iff]
        intro v hv hpv
        exact hnot (List.mem_filterMap.mpr ⟨v, hv, pendingReset_token hpv⟩)
      simp [List.filter_cons, hp, hnil]
    · simpa [List.filter_cons, hp] using ih (distinctTokens_tail h)

/-- C1: in a store where no two users hold the same reset token, if `resetpassword` with
token `t` and a password of at least 6 code units answers 200, then a second
`resetpassword` with `t` and a password of at least 6 code units, on the resulting store
and at any time not before the first, answers 400 "Invalid or expired token" and returns
the store as it was. -/
theorem resetpassword_single_use (env : Env) (c1 c2 : Ctx) (t p1 p2 : JSString) (s : Store)
    (h1 : 6 ≤ p1.length) (h2 : 6 ≤ p2.length) (hnow : c1.now ≤ c2.now)
    (hdist : DistinctTokens s)
    (hok : (resetpassword env c1 t p1 s).1.status = 200) :
    resetpassword env c2 t p2 (resetpassword env c1 t p1 s).2 =
      (⟨400, failureBody "Invalid or expired token"⟩, (resetpassword env c1 t p1 s).2) := by
  have hne1 := isEmpty_eq_false_of_length h1
  have hlt1 : ¬ p1.length < 6 := by omega
  cases hf : findOne (pendingReset t c1.now) s with
  | none => simp [resetpassword, hf, hne1, hlt1] at hok
  | some r =>
    obtain ⟨i, u⟩ := r
    have hstore : (resetpassword env c1 t p1 s).2 =
        s.set i { u with password := env.hash p1 c1.salt, resetToken := none,
                         resetTokenExpire := none } := by
      simp [resetpassword, hf, hne1, hlt1, save]
    rw [hstore]
    apply resetpassword_no_match env c2 t p2 _ h2
    exact no_match_after_set (q := pendingReset t c2.now) hf
      (pending_at_most_one hdist t c1.now) (by simp [pendingReset]) (pendingReset_mono hnow)

/-- C1 for Asha and Ravi, each with a pending token: Asha's token is used a second time one
second after the first and is refused. -/
theorem resetpassword_single_use_witness :
    (resetpassword demoEnv (demoCtx 1000 .sent) (lit "c0ffee") (lit "newpass1")
        [ashaPending, raviPending]).1.status = 200 ∧
    resetpassword demoEnv (demoCtx 2000 .sent) (lit "c0ffee") (lit "newpass2")
        (resetpassword demoEnv (demoCtx 1000 .sent) (lit "c0ffee") (lit "newpass1")
          [ashaPending, raviPending]).2 =
      (⟨400, failureBody "Invalid or expired token"⟩,
        (resetpassword demoEnv (demoCtx 1000 .sent) (lit "c0ffee") (lit "newpass1")
          [ashaPending, raviPending]).2) :=
  ⟨rfl, resetpassword_single_use demoEnv (demoCtx 1000 .sent) (demoCtx 2000 .sent)
    (lit "c0ffee") (lit "newpass1") (lit "newpass2") [ashaPending, raviPending] (by decide)
    (by decide) (by decide) (by decide) rfl⟩

/-! ## Lookup by email -/

theorem findOne_append_new {p : User → Bool} {s : Store} {u : User}
    (hnone : ∀ v ∈ s, p v = false) (hp : p u = true) :
    findOne p (s ++ [u]) = some (s.length, u) := by
  apply findOne_of_first
  · simp
  · exact hp
  · intro j hj v hv
    rw [List.getElem?_append_left hj] at hv
    exact hnone v (List.getElem?_mem hv)

theorem findOne_email_of_unique {s : Store} {i : Nat} {u : User}
    (huniq : UniqueEmails s) (hu : s[i]? = some u) :
    findOne (fun v => decide (v.email = u.email)) s = some (i, u) := by
  induction s generalizing i with
  | nil => simp at hu
  | cons a as ih =>
    unfold UniqueEmails at huniq
    simp only [List.map_cons, List.nodup_cons, List.mem_map, not_exists, not_and] at huniq
    cases i with
    | zero =>
      simp at hu
      subst hu
      simp [findOne]
    | succ i =>
      have hu1 : as[i]? = some u := by simpa using hu
      have hne : ¬ a.email = u.email := fun h => huniq.1 u (List.getElem?_mem hu1) h.symm
      have := ih huniq.2 hu1
      simp [findOne, hne, this]

theorem uniqueEmails_set {s : Store} {i : Nat} {u : User} (u1 : User)
    (huniq : UniqueEmails s) (hu : s[i]? = some u) (he : u1.email = u.email) :
    UniqueEmails (s.set i u1) := by
  unfold UniqueEmails at huniq ⊢
  have : (s.set i u1).map (fun v => v.email) = s.map (fun v => v.email) := by
    rw [List.map_set]
    apply List.ext_getElem?
    intro j
    by_cases hj : i = j
    · subst hj
      obtain ⟨hlt, hget⟩ := List.getElem?_eq_some_iff.mp hu
      simp [List.getElem?_set, hlt, he, hget]
    · simp [List.getElem?_set, hj]
  rw [this]
  exact huniq

theorem getElem?_set_self_of_some {s : Store} {i : Nat} {u u1 : User} (hu : s[i]? = some u) :
    (s.set i u1)[i]? = some u1 := by
  obtain ⟨hlt, _⟩ := List.getElem?_eq_some_iff.mp hu
  simp [List.getElem?_set, hlt]

/-! ## Registration and login -/

/-- C3: for non-empty name, email and password, an email the validator accepts and that
no stored user has, and a hasher whose digests verify their password, `register` answers
201 with `success: true` and as token the 30-day signature over the id of the new user,
whatever the mail transport does, and stores the new user; `login` with the same email
and password on the resulting store answers 200 with `success: true` and as token the
30-day signature over that same id. -/
theorem register_then_login (env : Env) (hver : env.Verifies) (c c2 : Ctx)
    (name email password : JSString) (s : Store)
    (hname : name ≠ []) (hemail : email ≠ []) (hpw : password ≠ [])
    (hvalid : env.isEmail email = true) (hfresh : ∀ u ∈ s, u.email ≠ email) :
    register env c name email password s =
      (⟨201, .obj [("token", .str (env.sign (.id c.newId) "30d" c.now)),
                   ("user", .obj [("name", .str name), ("email", .str email)]),
                   ("success", .bool true)]⟩,
        s ++ [⟨c.newId, name, email, env.hash password c.salt, none, none⟩]) ∧
    login env c2 email password (register env c name email password s).2 =
      (⟨200, .obj [("token", .str (env.sign (.id c.newId) "30d" c2.now)),
                   ("user", .obj [("name", .str name), ("email", .str email)]),
                   ("success", .bool true)]⟩,
        (register env c name email password s).2) := by
  have hnone : findOne (fun u => decide (u.email = email)) s = none := by
    rw [findOne_eq_none_iff]
    intro u hu
    simpa using hfresh u hu
  have hreg : register env c name email password s =
      (⟨201, .obj [("token", .str (env.sign (.id c.newId) "30d" c.now)),
                   ("user", .obj [("name", .str name), ("email", .str email)]),
                   ("success", .bool true)]⟩,
        s ++ [⟨c.newId, name, email, env.hash password c.salt, none, none⟩]) := by
    cases hm : c.mail <;>
      simp [register, hname, hemail, hpw, hvalid, hnone, insert, hm, createtoken, publicUser]
  refine ⟨hreg, ?_⟩
  rw [hreg]
  have hfound : findOne (fun u => decide (u.email = email))
      (s ++ [⟨c.newId, name, email, env.hash password c.salt, none, none⟩]) =
      some (s.length, ⟨c.newId, name, email, env.hash password c.salt, none, none⟩) :=
    findOne_append_new ((findOne_eq_none_iff _ _).mp hnone) (by simp)
  simp [login, hfound, hver password c.salt, createtoken, publicUser]

/-- C3 in the scenario of the specification: Asha registers into the empty store while the
mail transport fails, then logs in; with the sample signer the tokens list the id 100 and
the time of issue. -/
theorem register_then_login_witness :
    register demoEnv (demoCtx 1000 .failed) (lit "Asha") (lit "asha@example.com")
        (lit "secret1") [] =
      (⟨201, .obj [("token", .str [100, 1000]),
                   ("user", .obj [("name", .str (lit "Asha")),
                                  ("email", .str (lit "asha@example.com"))]),
                   ("success", .bool true)]⟩,
        [⟨100, lit "Asha", lit "asha@example.com", 7 :: lit "secret1", none, none⟩]) ∧
    login demoEnv (demoCtx 2000 .sent) (lit "asha@example.com") (lit "secret1")
        (register demoEnv (demoCtx 1000 .failed) (lit "Asha") (lit "asha@example.com")
          (lit "secret1") []).2 =
      (⟨200, .obj [("token", .str [100, 2000]),
                   ("user", .obj [("name", .str (lit "Asha")),
                                  ("email", .str (lit "asha@example.com"))]),
                   ("success", .bool true)]⟩,
        (register demoEnv (demoCtx 1000 .failed) (lit "Asha") (lit "asha@example.com")
          (lit "secret1") []).2) :=
  register_then_login demoEnv (fun password salt => by simp [demoEnv])
    (demoCtx 1000 .failed) (demoCtx 2000 .sent) (lit "Asha") (lit "asha@example.com")
    (lit "secret1") [] (by decide) (by decide) (by decide) (by decide) (by simp)

/-- C4, as the code has it: in a store without duplicate emails, when `resetpassword`
finds user `u` for the token and the new password has at least 6 code units, it answers
200, `u` is left with the digest of the new password and both reset fields absent, and
nothing else changes; `login` with `u.email` and the new password then answers 200; and
`login` with `u.email` and any other password, the old one included, answers 200 when
`bcrypt.compare` accepts it against the new digest and 401 "Invalid password" when it
does not. -/
theorem reset_then_login (env : Env) (hver : env.Verifies)
    (c c2 c3 : Ctx) (t newPassword oldPassword : JSString) (s : Store) (i : Nat) (u : User)
    (hlen : 6 ≤ newPassword.length) (huniq : UniqueEmails s)
    (hu : findOne (pendingReset t c.now) s = some (i, u)) :
    resetpassword env c t newPassword s =
      (⟨200, .obj [("message", .str (lit "Password reset successful")),
                   ("success", .bool true)]⟩,
        s.set i { u with password := env.hash newPassword c.salt, resetToken := none,
                         resetTokenExpire := none }) ∧
    login env c2 u.email newPassword (resetpassword env c t newPassword s).2 =
      (⟨200, .obj [("token", .str (env.sign (.id u.id) "30d" c2.now)),
                   ("user", .obj [("name", .str u.name), ("email", .str u.email)]),
                   ("success", .bool true)]⟩,
        (resetpassword env c t newPassword s).2) ∧
    login env c3 u.email oldPassword (resetpassword env c t newPassword s).2 =
      (if env.compare oldPassword (env.hash newPassword c.salt) = true then
        (⟨200, .obj [("token", .str (env.sign (.id u.id) "30d" c3.now)),
                     ("user", .obj [("name", .str u.name), ("email", .str u.email)]),
                     ("success", .bool true)]⟩,
          (resetpassword env c t newPassword s).2)
       else
        (⟨401, failureBody "Invalid password"⟩, (resetpassword env c t newPassword s).2)) := by
  have hempty := isEmpty_eq_false_of_length hlen
  have hlt : ¬ newPassword.length < 6 := by omega
  have hreset : resetpassword env c t newPassword s =
      (⟨200, .obj [("message", .str (lit "Password reset successful")),
                   ("success", .bool true)]⟩,
        s.set i { u with password := env.hash newPassword c.salt, resetToken := none,
                         resetTokenExpire := none }) := by
    simp [resetpassword, hu, hempty, hlt, save]
  have hget := (findOne_some_spec hu).1
  have hfound : findOne (fun v => decide (v.email = u.email))
      (s.set i { u with password := env.hash newPassword c.salt, resetToken := none,
                        resetTokenExpire := none }) =
      some (i, { u with password := env.hash newPassword c.salt, resetToken := none,
                        resetTokenExpire := none }) :=
    findOne_email_of_unique
      (u := { u with password := env.hash newPassword c.salt, resetToken := none,
                     resetTokenExpire := none })
      (uniqueEmails_set { u with password := env.hash newPassword c.salt,
                                 resetToken := none, resetTokenExpire := none }
        huniq hget rfl)
      (getElem?_set_self_of_some hget)
  refine ⟨hreset, ?_, ?_⟩
  · rw [hreset]
    simp [login, hfound, hver newPassword c.salt, createtoken, publicUser]
  · rw [hreset]
    simp only [login, hfound, createtoken, publicUser]

/-- C4 for Asha, one millisecond before her token expires: after the reset with
`newpass1`, `newpass1` logs in and `secret1`, which the new digest does not verify, is
answered 401. -/
theorem reset_then_login_witness :
    login demoEnv (demoCtx 6000 .sent) (lit "asha@example.com") (lit "newpass1")
        (resetpassword demoEnv (demoCtx 4999 .sent) (lit "c0ffee") (lit "newpass1")
          [ashaPending]).2 =
      (⟨200, .obj [("token", .str [1, 6000]),
                   ("user", .obj [("name", .str (lit "Asha")),
                                  ("email", .str (lit "asha@example.com"))]),
                   ("success", .bool true)]⟩,
        (resetpassword demoEnv (demoCtx 4999 .sent) (lit "c0ffee") (lit "newpass1")
          [ashaPending]).2) ∧
    login demoEnv (demoCtx 7000 .sent) (lit "asha@example.com") (lit "secret1")
        (resetpassword demoEnv (demoCtx 4999 .sent) (lit "c0ffee") (lit "newpass1")
          [ashaPending]).2 =
      (⟨401, failureBody "Invalid password"⟩,
        (resetpassword demoEnv (demoCtx 4999 .sent) (lit "c0ffee") (lit "newpass1")
          [ashaPending]).2) :=
  have h := reset_then_login demoEnv (fun password salt => by simp [demoEnv])
    (demoCtx 4999 .sent) (demoCtx 6000 .sent) (demoCtx 7000 .sent) (lit "c0ffee")
    (lit "newpass1") (lit "secret1") [ashaPending] 0 ashaPending (by decide)
    (by decide) rfl
  ⟨h.2.1, h.2.2.trans (if_neg (by decide))⟩

/-- C4 as stated fails for equal old and new passwords: Asha resets to the password she
already had, and a login with that old password answers 200, not 401. -/
theorem reset_to_same_password_keeps_login :
    demoEnv.compare (lit "secret1") ashaPending.password = true ∧
    (resetpassword demoEnv (demoCtx 1000 .sent) (lit "c0ffee") (lit "secret1")
        [ashaPending]).1.status = 200 ∧
    (login demoEnv (demoCtx 2000 .sent) ashaPending.email (lit "secret1")
        (resetpassword demoEnv (demoCtx 1000 .sent) (lit "c0ffee") (lit "secret1")
          [ashaPending]).2).1.status = 200 := by
  refine ⟨?_, rfl, rfl⟩
  decide

/-! ## Password reset: requesting a token -/

/-- C8: in a store without duplicate emails holding user `u` at position `i` with a
non-empty email `e` the validator accepts, `forgotpassword e` returns the store with `u`
replaced by `u` with `resetToken` the generated token and `resetTokenExpire` the current
time plus 600000 ms, whatever the mail transport does, and answers 500 "Failed to send
email" when the send fails and 200 with `success: true` otherwise. -/
theorem forgotpassword_sets_token (env : Env) (c : Ctx) (e : JSString) (s : Store)
    (i : Nat) (u : User)
    (hne : e ≠ []) (hvalid : env.isEmail e = true) (huniq : UniqueEmails s)
    (hu : s[i]? = some u) (hue : u.email = e) :
    (forgotpassword env c e s).2 =
      s.set i { u with resetToken := some c.randomHex,
                       resetTokenExpire := some (c.now + 600000) } ∧
    (forgotpassword env c e s).1 =
      (if c.mail = .failed then ⟨500, failureBody "Failed to send email"⟩
       else ⟨200, .obj [("message", .str (lit "Email sent")), ("success", .bool true)]⟩) := by
  have hfound := findOne_email_of_unique huniq hu
  rw [hue] at hfound
  cases hm : c.mail <;> simp [forgotpassword, hne, hvalid, hfound, save, hm]

/-- C8 for Asha with a reset already pending and a failing mail transport: the pending
token and expiry are replaced, and the answer is 500. -/
theorem forgotpassword_sets_token_witness :
    (forgotpassword demoEnv ⟨9000, 7, 100, lit "decaf", .failed⟩ (lit "asha@example.com")
        [ashaPending, raviPending]).2 =
      [{ ashaPending with resetToken := some (lit "decaf"), resetTokenExpire := some 609000 },
        raviPending] ∧
    (forgotpassword demoEnv ⟨9000, 7, 100, lit "decaf", .failed⟩ (lit "asha@example.com")
        [ashaPending, raviPending]).1 = ⟨500, failureBody "Failed to send email"⟩ :=
  forgotpassword_sets_token demoEnv ⟨9000, 7, 100, lit "decaf", .failed⟩
    (lit "asha@example.com") [ashaPending, raviPending] 0 ashaPending (by decide) (by decide)
    (by decide) rfl rfl

/-! ## Duplicate registration -/

theorem register_store (env : Env) (c : Ctx) (name email password : JSString) (s : Store) :
    (register env c name email password s).2 = s ∨
      ((∀ u ∈ s, u.email ≠ email) ∧
        (register env c name email password s).2 =
          s ++ [⟨c.newId, name, email, env.hash password c.salt, none, none⟩]) := by
  unfold register
  split
  · exact Or.inl rfl
  · split
    · exact Or.inl rfl
    · cases hf : findOne (fun u => decide (u.email = email)) s with
      | some r => exact Or.inl rfl
      | none =>
        right
        refine ⟨fun u hu => by simpa using (findOne_eq_none_iff _ _).mp hf u hu, ?_⟩
        cases hm : c.mail <;> simp [insert]

theorem register_keeps_unique (env : Env) (c : Ctx) (name email password : JSString)
    (s : Store) (h : UniqueEmails s) :
    UniqueEmails (register env c name email password s).2 := by
  rcases register_store env c name email password s with hs | ⟨hfresh, hs⟩
  · rw [hs]; exact h
  · rw [hs]
    unfold UniqueEmails at h ⊢
    rw [List.map_append, List.nodup_append]
    refine ⟨h, by simp, ?_⟩
    intro e he he1
    simp only [List.map_cons, List.map_nil, List.mem_singleton] at he1
    simp only [List.mem_map] at he
    obtain ⟨u, hu, hue⟩ := he
    exact hfresh u hu (hue.trans he1)

theorem register_keeps_emails (env : Env) (c : Ctx) (name email password : JSString)
    (s : Store) (e : JSString) (h : e ∈ s.map fun u => u.email) :
    e ∈ (register env c name email password s).2.map fun u => u.email := by
  rcases register_store env c name email password s with hs | ⟨_, hs⟩
  · rw [hs]; exact h
  · rw [hs, List.map_append]
    exact List.mem_append_left _ h

theorem register_conflict (env : Env) (c : Ctx) (name e password : JSString) (s : Store)
    (hname : name ≠ []) (hpw : password ≠ []) (he : e ≠ []) (hvalid : env.isEmail e = true)
    (hdup : ∃ u ∈ s, u.email = e) :
    register env c name e password s = (⟨409, failureBody "Email already registered"⟩, s) := by
  cases hf : findOne (fun u => decide (u.email = e)) s with
  | none =>
    obtain ⟨u, hu, hue⟩ := hdup
    have := (findOne_eq_none_iff _ _).mp hf u hu
    simp [hue] at this
  | some r => simp [register, hname, hpw, he, hvalid, hf]

theorem register_email_stored (env : Env) (c : Ctx) (name e password : JSString) (s : Store)
    (hname : name ≠ []) (hpw : password ≠ []) (he : e ≠ []) (hvalid : env.isEmail e = true) :
    e ∈ (register env c name e password s).2.map fun u => u.email := by
  by_cases hdup : ∃ u ∈ s, u.email = e
  · rw [register_conflict env c name e password s hname hpw he hvalid hdup]
    obtain ⟨u, hu, hue⟩ := hdup
    exact List.mem_map.mpr ⟨u, hu, hue⟩
  · have hnone : findOne (fun u => decide (u.email = e)) s = none := by
      rw [findOne_eq_none_iff]
      intro u hu
      simpa using fun h => hdup ⟨u, hu, h⟩
    cases hm : c.mail <;> simp [register, hname, hpw, he, hvalid, hnone, insert, hm]

theorem registerAll_keeps_unique (env : Env) (calls : List RegisterCall) (s : Store)
    (h : UniqueEmails s) : UniqueEmails (registerAll env calls s) := by
  induction calls generalizing s with
  | nil => exact h
  | cons call rest ih => exact ih _ (register_keeps_unique env _ _ _ _ s h)

theorem registerAll_keeps_emails (env : Env) (calls : List RegisterCall) (s : Store)
    (e : JSString) (h : e ∈ s.map fun u => u.email) :
    e ∈ (registerAll env calls s).map fun u => u.email := by
  induction calls generalizing s with
  | nil => exact h
  | cons call rest ih => exact ih _ (register_keeps_emails env _ _ _ _ s e h)

theorem registerAll_email_stored (env : Env) (calls : List RegisterCall) (s : Store)
    (call : RegisterCall) (hcall : call ∈ calls)
    (hname : call.name ≠ []) (hpw : call.password ≠ []) (he : call.email ≠ [])
    (hvalid : env.isEmail call.email = true) :
    call.email ∈ (registerAll env calls s).map fun u => u.email := by
  induction calls generalizing s with
  | nil => cases hcall
  | cons first rest ih =>
    rcases List.mem_cons.mp hcall with rfl | hrest
    · exact registerAll_keeps_emails env rest _ _
        (register_email_stored env _ _ _ _ s hname hpw he hvalid)
    · exact ih _ hrest

theorem one_user_per_email {s : Store} {e : JSString} (h : UniqueEmails s)
    (he : e ∈ s.map fun u => u.email) :
    (s.filter fun u => decide (u.email = e)).length = 1 := by
  induction s with
  | nil => simp at he
  | cons a as ih =>
    unfold UniqueEmails at h
    simp only [List.map_cons, List.nodup_cons] at h
    by_cases hae : a.email = e
    · have hnil : as.filter (fun u => decide (u.email = e)) = [] := by
        rw [List.filter_eq_nil_iff]
        intro u hu
        have hne : u.email ≠ e := fun hue =>
          h.1 (List.mem_map.mpr ⟨u, hu, hue.trans hae.symm⟩)
        simpa using hne
      simp [List.filter_cons, hae, hnil]
    · have he1 : e ∈ as.map fun u => u.email := by
        simp only [List.map_cons, List.mem_cons] at he
        rcases he with he | he
        · exact absurd he.symm hae
        · exact he
      simpa [List.filter_cons, hae] using ih h.2 he1

/-- C5: in a store whose emails are non-empty and accepted by the validator, as `register`
leaves them, when a user with email `e` is stored, `register` with `e` and any non-empty
name and password answers 409 with `success: false` and returns the store as it was; and
from a store without duplicate emails, any sequence of `register` calls leaves a store
without duplicate emails, in which every user is the only one with their email, and which
holds exactly one user for every email it held before and for every email of a call with
non-empty fields and a valid email. -/
theorem register_duplicate_email (env : Env) :
    (∀ (c : Ctx) (name e password : JSString) (s : Store),
        ValidEmails env s → name ≠ [] → password ≠ [] → (∃ u ∈ s, u.email = e) →
        register env c name e password s =
          (⟨409, .obj [("message", .str (lit "Email already registered")),
                       ("success", .bool false)]⟩, s)) ∧
    (∀ (calls : List RegisterCall) (s : Store), UniqueEmails s →
        UniqueEmails (registerAll env calls s) ∧
        (∀ u ∈ registerAll env calls s,
          ((registerAll env calls s).filter fun v => decide (v.email = u.email)).length = 1) ∧
        (∀ e, e ∈ (s.map fun u => u.email) →
          ((registerAll env calls s).filter fun u => decide (u.email = e)).length = 1) ∧
        (∀ call ∈ calls, call.name ≠ [] → call.password ≠ [] → call.email ≠ [] →
          env.isEmail call.email = true →
          ((registerAll env calls s).filter fun u =>
            decide (u.email = call.email)).length = 1)) := by
  constructor
  · intro c name e password s hvalid hname hpw hdup
    obtain ⟨u, hu, hue⟩ := hdup
    have he := hvalid u hu
    rw [hue] at he
    exact register_conflict env c name e password s hname hpw he.1 he.2 ⟨u, hu, hue⟩
  intro calls s huniq
  have hfinal := registerAll_keeps_unique env calls s huniq
  refine ⟨hfinal, ?_, ?_, ?_⟩
  · intro u hu
    exact one_user_per_email hfinal (List.mem_map.mpr ⟨u, hu, rfl⟩)
  · intro e he
    exact one_user_per_email hfinal (registerAll_keeps_emails env calls s e he)
  · intro call hcall hname hpw he hvalid
    exact one_user_per_email hfinal
      (registerAll_email_stored env calls s call hcall hname hpw he hvalid)

/-- C5 for Asha: registering her email again answers 409 and changes nothing; and after
Ravi registers twice on top of Asha, the emails are still without duplicates. -/
theorem register_duplicate_email_witness :
    register demoEnv (demoCtx 1000 .sent) (lit "Asha B") (lit "asha@example.com")
        (lit "other12") [asha] =
      (⟨409, failureBody "Email already registered"⟩, [asha]) ∧
    UniqueEmails (registerAll demoEnv
      [⟨demoCtx 1000 .sent, lit "Ravi", lit "ravi@example.com", lit "hunter22"⟩,
        ⟨demoCtx 2000 .failed, lit "Ravi B", lit "ravi@example.com", lit "hunter23"⟩] [asha]) :=
  ⟨(register_duplicate_email demoEnv).1 (demoCtx 1000 .sent) (lit "Asha B")
      (lit "asha@example.com") (lit "other12") [asha]
      (fun u hu => by
        rw [List.mem_singleton.mp hu]
        exact ⟨by decide, by decide⟩)
      (by decide) (by decide) ⟨asha, List.mem_singleton.mpr rfl, rfl⟩,
    ((register_duplicate_email demoEnv).2 _ [asha] (by decide)).1⟩

/-! ## Pairing of the reset fields -/

theorem paired_set {s : Store} {i : Nat} {u1 : User} (h : Paired s)
    (h1 : u1.resetToken.isSome = u1.resetTokenExpire.isSome) : Paired (s.set i u1) := by
  intro v hv
  rcases List.mem_or_eq_of_mem_set hv with hv | rfl
  · exact h v hv
  · exact h1

theorem paired_append {s : Store} {u1 : User} (h : Paired s)
    (h1 : u1.resetToken.isSome = u1.resetTokenExpire.isSome) : Paired (s ++ [u1]) := by
  intro v hv
  rcases List.mem_append.mp hv with hv | hv
  · exact h v hv
  · rw [List.mem_singleton.mp hv]; exact h1

theorem login_store (env : Env) (c : Ctx) (email password : JSString) (s : Store) :
    (login env c email password s).2 = s := by
  unfold login
  split
  · rfl
  · split <;> rfl

theorem adminlogin_store (env : Env) (c : Ctx) (email password : JSString) (s : Store) :
    (adminlogin env c email password s).2 = s := by
  unfold adminlogin
  split <;> rfl

theorem getname_store (id : Nat) (s : Store) : (getname id s).2 = s := by
  unfold getname
  split <;> rfl

theorem forgotpassword_store (env : Env) (c : Ctx) (email : JSString) (s : Store) :
    (forgotpassword env c email s).2 = s ∨
      ∃ (i : Nat) (u : User), s[i]? = some u ∧ (forgotpassword env c email s).2 =
        s.set i { u with resetToken := some c.randomHex,
                         resetTokenExpire := some (c.now + 600000) } := by
  unfold forgotpassword
  split
  · exact Or.inl rfl
  · cases hf : findOne (fun u => decide (u.email = email)) s with
    | none => exact Or.inl rfl
    | some r =>
      right
      refine ⟨r.1, r.2, (findOne_some_spec (i := r.1) (u := r.2) hf).1, ?_⟩
      cases hm : c.mail <;> simp [save]

theorem resetpassword_store (env : Env) (c : Ctx) (token password : JSString) (s : Store) :
    (resetpassword env c token password s).2 = s ∨
      ∃ (i : Nat) (u : User), s[i]? = some u ∧ (resetpassword env c token password s).2 =
        s.set i { u with password := env.hash password c.salt, resetToken := none,
                         resetTokenExpire := none } := by
  unfold resetpassword
  split
  · exact Or.inl rfl
  · cases hf : findOne (pendingReset token c.now) s with
    | none => exact Or.inl rfl
    | some r =>
      exact Or.inr ⟨r.1, r.2, (findOne_some_spec (i := r.1) (u := r.2) hf).1, by simp [save]⟩

/-- C6: if every user of the store has `resetToken` and `resetTokenExpire` both present or
both absent, the same holds of the store returned by any handler, for every request and
every call context (mail transport disabled, sending, or failing). -/
theorem handlers_keep_pairing (env : Env) (c : Ctx) (req : Request) (s : Store)
    (h : Paired s) : Paired (handle env c req s).2 := by
  cases req with
  | login email password =>
    show Paired (login env c email password s).2
    rw [login_store]; exact h
  | register name email password =>
    show Paired (register env c name email password s).2
    rcases register_store env c name email password s with hs | ⟨_, hs⟩
    · rw [hs]; exact h
    · rw [hs]; exact paired_append h rfl
  | forgotpassword email =>
    show Paired (forgotpassword env c email s).2
    rcases forgotpassword_store env c email s with hs | ⟨i, u, _, hs⟩
    · rw [hs]; exact h
    · rw [hs]; exact paired_set h rfl
  | resetpassword token password =>
    show Paired (resetpassword env c token password s).2
    rcases resetpassword_store env c token password s with hs | ⟨i, u, _, hs⟩
    · rw [hs]; exact h
    · rw [hs]; exact paired_set h rfl
  | adminlogin email password =>
    show Paired (adminlogin env c email password s).2
    rw [adminlogin_store]; exact h
  | logout => exact h
  | getname id =>
    show Paired (getname id s).2
    rw [getname_store]; exact h

/-- C6 for a reset request on a store with one pending and one idle user. -/
theorem handlers_keep_pairing_witness :
    Paired [ashaPending, asha] ∧
    Paired (handle demoEnv (demoCtx 9000 .failed) (.forgotpassword (lit "asha@example.com"))
      [ashaPending, asha]).2 :=
  have h : Paired [ashaPending, asha] := by
    intro u hu
    simp only [List.mem_cons, List.mem_singleton, List.not_mem_nil, or_false] at hu
    rcases hu with rfl | rfl <;> rfl
  ⟨h, handlers_keep_pairing demoEnv (demoCtx 9000 .failed)
    (.forgotpassword (lit "asha@example.com")) [ashaPending, asha] h⟩

/-! ## Stores built by the handlers -/

theorem register_inserts_valid (env : Env) (c : Ctx) (name email password : JSString)
    (s : Store) :
    (register env c name email password s).2 = s ∨
      (email ≠ [] ∧ env.isEmail email = true) := by
  unfold register
  split
  · exact Or.inl rfl
  · split
    · exact Or.inl rfl
    · rename_i h1 h2
      right
      constructor
      · intro he
        apply h1
        simp [he]
      · simpa using h2

theorem validEmails_set {env : Env} {s : Store} {i : Nat} {u : User} (u1 : User)
    (h : ValidEmails env s) (hu : s[i]? = some u) (he : u1.email = u.email) :
    ValidEmails env (s.set i u1) := by
  intro v hv
  rcases List.mem_or_eq_of_mem_set hv with hv | rfl
  · exact h v hv
  · rw [he]
    exact h u (List.getElem?_mem hu)

theorem mem_tokens_set {s : Store} {i : Nat} {u1 : User} {t : JSString}
    (h : t ∈ (s.set i u1).filterMap fun u => u.resetToken) :
    t ∈ (s.filterMap fun u => u.resetToken) ∨ u1.resetToken = some t := by
  simp only [List.mem_filterMap] at h ⊢
  obtain ⟨v, hv, hvt⟩ := h
  rcases List.mem_or_eq_of_mem_set hv with hv | rfl
  · exact Or.inl ⟨v, hv, hvt⟩
  · exact Or.inr hvt

theorem distinctTokens_set {s : Store} {i : Nat} (u1 : User) (h : DistinctTokens s)
    (hnew : ∀ t, u1.resetToken = some t → t ∉ s.filterMap fun u => u.resetToken) :
    DistinctTokens (s.set i u1) := by
  induction s generalizing i with
  | nil => simpa using h
  | cons a as ih =>
    have htail := distinctTokens_tail h
    have hnew1 : ∀ t, u1.resetToken = some t → t ∉ as.filterMap fun u => u.resetToken := by
      intro t ht hmem
      apply hnew t ht
      rw [List.filterMap_cons]
      cases a.resetToken with
      | none => exact hmem
      | some x => exact List.mem_cons_of_mem _ hmem
    cases i with
    | zero =>
      unfold DistinctTokens
      rw [List.set_cons_zero, List.filterMap_cons]
      cases h1 : u1.resetToken with
      | none => exact htail
      | some t => exact List.nodup_cons.mpr ⟨hnew1 t h1, htail⟩
    | succ i =>
      have hrec := ih (i := i) htail hnew1
      unfold DistinctTokens at h hrec ⊢
      rw [List.set_cons_succ, List.filterMap_cons]
      cases ha : a.resetToken with
      | none => exact hrec
      | some x =>
        rw [List.filterMap_cons, ha] at h
        refine List.nodup_cons.mpr ⟨?_, hrec⟩
        intro hx
        rcases mem_tokens_set hx with hx | hx
        · exact (List.nodup_cons.mp h).1 hx
        · apply hnew x hx
          rw [List.filterMap_cons, ha]
          exact List.mem_cons_self _ _

theorem handle_keeps_unique (env : Env) (c : Ctx) (req : Request) (s : Store)
    (h : UniqueEmails s) : UniqueEmails (handle env c req s).2 := by
  cases req with
  | login email password =>
    show UniqueEmails (login env c email password s).2
    rw [login_store]; exact h
  | register name email password => exact register_keeps_unique env c name email password s h
  | forgotpassword email =>
    show UniqueEmails (forgotpassword env c email s).2
    rcases forgotpassword_store env c email s with hs | ⟨i, u, hu, hs⟩
    · rw [hs]; exact h
    · rw [hs]; exact uniqueEmails_set _ h hu rfl
  | resetpassword token password =>
    show UniqueEmails (resetpassword env c token password s).2
    rcases resetpassword_store env c token password s with hs | ⟨i, u, hu, hs⟩
    · rw [hs]; exact h
    · rw [hs]; exact uniqueEmails_set _ h hu rfl
  | adminlogin email password =>
    show UniqueEmails (adminlogin env c email password s).2
    rw [adminlogin_store]; exact h
  | logout => exact h
  | getname id =>
    show UniqueEmails (getname id s).2
    rw [getname_store]; exact h

theorem handle_keeps_valid (env : Env) (c : Ctx) (req : Request) (s : Store)
    (h : ValidEmails env s) : ValidEmails env (handle env c req s).2 := by
  cases req with
  | login email password =>
    show ValidEmails env (login env c email password s).2
    rw [login_store]; exact h
  | register name email password =>
    show ValidEmails env (register env c name email password s).2
    rcases register_store env c name email password s with hs | ⟨_, hs⟩
    · rw [hs]; exact h
    · rcases register_inserts_valid env c name email password s with hs1 | hv
      · rw [hs1]; exact h
      · rw [hs]
        intro v hv1
        rcases List.mem_append.mp hv1 with hv1 | hv1
        · exact h v hv1
        · rw [List.mem_singleton.mp hv1]; exact hv
  | forgotpassword email =>
    show ValidEmails env (forgotpassword env c email s).2
    rcases forgotpassword_store env c email s with hs | ⟨i, u, hu, hs⟩
    · rw [hs]; exact h
    · rw [hs]; exact validEmails_set _ h hu rfl
  | resetpassword token password =>
    show ValidEmails env (resetpassword env c token password s).2
    rcases resetpassword_store env c token password s with hs | ⟨i, u, hu, hs⟩
    · rw [hs]; exact h
    · rw [hs]; exact validEmails_set _ h hu rfl
  | adminlogin email password =>
    show ValidEmails env (adminlogin env c email password s).2
    rw [adminlogin_store]; exact h
  | logout => exact h
  | getname id =>
    show ValidEmails env (getname id s).2
    rw [getname_store]; exact h

theorem handle_keeps_distinct (env : Env) (c : Ctx) (req : Request) (s : Store)
    (h : DistinctTokens s) (hdraw : c.randomHex ∉ s.filterMap fun u => u.resetToken) :
    DistinctTokens (handle env c req s).2 := by
  cases req with
  | login email password =>
    show DistinctTokens (login env c email password s).2
    rw [login_store]; exact h
  | register name email password =>
    show DistinctTokens (register env c name email password s).2
    rcases register_store env c name email password s with hs | ⟨_, hs⟩
    · rw [hs]; exact h
    · rw [hs]
      unfold DistinctTokens at h ⊢
      simpa [List.filterMap_append] using h
  | forgotpassword email =>
    show DistinctTokens (forgotpassword env c email s).2
    rcases forgotpassword_store env c email s with hs | ⟨i, u, _, hs⟩
    · rw [hs]; exact h
    · rw [hs]
      apply distinctTokens_set _ h
      intro t ht
      simp only [Option.some.injEq] at ht
      rw [← ht]
      exact hdraw
  | resetpassword token password =>
    show DistinctTokens (resetpassword env c token password s).2
    rcases resetpassword_store env c token password s with hs | ⟨i, u, _, hs⟩
    · rw [hs]; exact h
    · rw [hs]
      apply distinctTokens_set _ h
      intro t ht
      simp at ht
  | adminlogin email password =>
    show DistinctTokens (adminlogin env c email password s).2
    rw [adminlogin_store]; exact h
  | logout => exact h
  | getname id =>
    show DistinctTokens (getname id s).2
    rw [getname_store]; exact h

theorem handleAll_keeps_invariants (env : Env) (calls : List (Ctx × Request)) (s : Store)
    (hu : UniqueEmails s) (hv : ValidEmails env s) (hd : DistinctTokens s)
    (hdraws : FreshDraws env calls s) :
    UniqueEmails (handleAll env calls s) ∧ ValidEmails env (handleAll env calls s) ∧
      DistinctTokens (handleAll env calls s) := by
  induction calls generalizing s with
  | nil => exact ⟨hu, hv, hd⟩
  | cons call rest ih =>
    exact ih _ (handle_keeps_unique env call.1 call.2 s hu)
      (handle_keeps_valid env call.1 call.2 s hv)
      (handle_keeps_distinct env call.1 call.2 s hd hdraws.1) hdraws.2

theorem built_store_invariants (env : Env) (calls : List (Ctx × Request))
    (hdraws : FreshDraws env calls []) :
    UniqueEmails (handleAll env calls []) ∧ ValidEmails env (handleAll env calls []) ∧
      DistinctTokens (handleAll env calls []) :=
  handleAll_keeps_invariants env calls [] List.nodup_nil (fun _ h => absurd h (List.not_mem_nil _))
    List.nodup_nil hdraws

/-! ## Shape of the responses -/

theorem login_shape (env : Env) (c : Ctx) (email password : JSString) (s : Store) :
    (login env c email password s).1.body.hasSuccess = true ∧
      (400 ≤ (login env c email password s).1.status →
        (login env c email password s).1.body.hasMessage = true) := by
  unfold login
  split
  · exact ⟨rfl, fun _ => rfl⟩
  · split
    · exact ⟨rfl, fun h => by simp at h⟩
    · exact ⟨rfl, fun _ => rfl⟩

theorem register_shape (env : Env) (c : Ctx) (name email password : JSString) (s : Store) :
    (register env c name email password s).1.body.hasSuccess = true ∧
      (400 ≤ (register env c name email password s).1.status →
        (register env c name email password s).1.body.hasMessage = true) := by
  unfold register
  split
  · exact ⟨rfl, fun _ => rfl⟩
  · split
    · exact ⟨rfl, fun _ => rfl⟩
    · split
      · exact ⟨rfl, fun _ => rfl⟩
      · cases c.mail <;> exact ⟨rfl, fun h => by simp at h⟩

theorem forgotpassword_shape (env : Env) (c : Ctx) (email : JSString) (s : Store) :
    (forgotpassword env c email s).1.body.hasSuccess = true ∧
      (400 ≤ (forgotpassword env c email s).1.status →
        (forgotpassword env c email s).1.body.hasMessage = true) := by
  unfold forgotpassword
  split
  · exact ⟨rfl, fun _ => rfl⟩
  · split
    · exact ⟨rfl, fun _ => rfl⟩
    · cases c.mail <;> exact ⟨rfl, fun _ => rfl⟩

theorem resetpassword_shape (env : Env) (c : Ctx) (token password : JSString) (s : Store) :
    (resetpassword env c token password s).1.body.hasSuccess = true ∧
      (400 ≤ (resetpassword env c token password s).1.status →
        (resetpassword env c token password s).1.body.hasMessage = true) := by
  unfold resetpassword
  split
  · exact ⟨rfl, fun _ => rfl⟩
  · split <;> exact ⟨rfl, fun _ => rfl⟩

theorem adminlogin_shape (env : Env) (c : Ctx) (email password : JSString) (s : Store) :
    (adminlogin env c email password s).1.body.hasSuccess = true ∧
      (400 ≤ (adminlogin env c email password s).1.status →
        (adminlogin env c email password s).1.body.hasMessage = true) := by
  unfold adminlogin
  split
  · exact ⟨rfl, fun h => by simp at h⟩
  · exact ⟨rfl, fun _ => rfl⟩

theorem userJson_fields (u : User) :
    (userJson u).hasSuccess = false ∧ (userJson u).field "password" = none := by
  cases u with
  | mk id name email password resetToken resetTokenExpire =>
    cases resetToken <;> cases resetTokenExpire <;> exact ⟨rfl, rfl⟩

/-- C9, as the code has it: every response of `login`, `register`, `forgotpassword`,
`resetpassword`, `adminlogin` and `logout` is a JSON object with a boolean `success`, and
carries a `message` when its status is 400 or more; so does the response of the `catch`
branches. `getname` answers 200 with either null or the user document without its
password, and that body has no `success` field. -/
theorem response_shape (env : Env) (c : Ctx) (s : Store) :
    (∀ req : Request, (∀ id, req ≠ .getname id) →
      (handle env c req s).1.body.hasSuccess = true ∧
      (400 ≤ (handle env c req s).1.status →
        (handle env c req s).1.body.hasMessage = true)) ∧
    (serverError.body.hasSuccess = true ∧ serverError.body.hasMessage = true ∧
      duplicateKeyError.body.hasSuccess = true ∧ duplicateKeyError.body.hasMessage = true) ∧
    (∀ id, (getname id s).1.status = 200 ∧
      ((getname id s).1.body = .null ∨
        ∃ u ∈ s, u.id = id ∧ (getname id s).1.body = userJson u) ∧
      (getname id s).1.body.hasSuccess = false ∧
      (getname id s).1.body.field "password" = none) := by
  refine ⟨?_, ⟨rfl, rfl, rfl, rfl⟩, ?_⟩
  · intro req hreq
    cases req with
    | login email password => exact login_shape env c email password s
    | register name email password => exact register_shape env c name email password s
    | forgotpassword email => exact forgotpassword_shape env c email s
    | resetpassword token password => exact resetpassword_shape env c token password s
    | adminlogin email password => exact adminlogin_shape env c email password s
    | logout => exact ⟨rfl, fun _ => rfl⟩
    | getname id => exact absurd rfl (hreq id)
  · intro id
    cases hf : findOne (fun u => decide (u.id = id)) s with
    | none =>
      have hb : getname id s = (⟨200, .null⟩, s) := by simp [getname, hf]
      rw [hb]
      exact ⟨rfl, Or.inl rfl, rfl, rfl⟩
    | some r =>
      have hb : getname id s = (⟨200, userJson r.2⟩, s) := by simp [getname, hf]
      rw [hb]
      have hspec := findOne_some_spec (i := r.1) (u := r.2) hf
      exact ⟨rfl, Or.inr ⟨r.2, List.getElem?_mem hspec.1, by simpa using hspec.2.1, rfl⟩,
        (userJson_fields r.2).1, (userJson_fields r.2).2⟩

/-- C9 for a login with a wrong password: the 401 response has `success` and `message`. -/
theorem response_shape_witness :
    (handle demoEnv (demoCtx 1000 .sent) (.login (lit "asha@example.com") (lit "wrong")) [asha]).1
        = ⟨401, failureBody "Invalid password"⟩ ∧
    (handle demoEnv (demoCtx 1000 .sent) (.login (lit "asha@example.com") (lit "wrong"))
        [asha]).1.body.hasSuccess = true ∧
    (handle demoEnv (demoCtx 1000 .sent) (.login (lit "asha@example.com") (lit "wrong"))
        [asha]).1.body.hasMessage = true :=
  ⟨rfl,
    ((response_shape demoEnv (demoCtx 1000 .sent) [asha]).1
      (.login (lit "asha@example.com") (lit "wrong")) (fun _ h => Request.noConfusion h)).1,
    ((response_shape demoEnv (demoCtx 1000 .sent) [asha]).1
      (.login (lit "asha@example.com") (lit "wrong")) (fun _ h => Request.noConfusion h)).2
      (by decide)⟩

/-- C9 as stated fails for `getname`: for a stored user the 200 response is the user
document, and for an unknown id it is null; neither has a `success` field. -/
theorem getname_has_no_success :
    (handle demoEnv (demoCtx 1000 .sent) (.getname 1) [asha]).1.status = 200 ∧
    (handle demoEnv (demoCtx 1000 .sent) (.getname 1) [asha]).1.body =
      .obj [("_id", .num 1), ("name", .str (lit "Asha")),
            ("email", .str (lit "asha@example.com"))] ∧
    (handle demoEnv (demoCtx 1000 .sent) (.getname 1) [asha]).1.body.hasSuccess = false ∧
    (handle demoEnv (demoCtx 1000 .sent) (.getname 5) [asha]).1.body = .null ∧
    (handle demoEnv (demoCtx 1000 .sent) (.getname 5) [asha]).1.body.hasSuccess = false :=
  ⟨rfl, rfl, rfl, rfl, rfl⟩

/-! ## Prompt data -/

theorem prepareDescription_some (d : JSString) :
    prepareDescription (some d) = if d.length ≤ 150 then d else d.take 150 ++ lit "..." := by
  unfold prepareDescription
  cases d with
  | nil => rfl
  | cons a as =>
    by_cases h : (a :: as).length ≤ 150
    · have h1 : ¬ (a :: as).length > 150 := by omega
      simp only [List.isEmpty_cons, Bool.false_eq_true, if_false, h1, h, if_true,
        List.append_nil]
      exact List.take_of_length_le h
    · have h1 : (a :: as).length > 150 := by omega
      simp only [List.isEmpty_cons, Bool.false_eq_true, if_false, h1, h, if_true]

theorem prepareDescription_length (d : Option JSString) :
    (prepareDescription d).length ≤ 153 := by
  cases d with
  | none => simp [prepareDescription]
  | some d =>
    rw [prepareDescription_some]
    split
    · omega
    · have h3 : (lit "...").length = 3 := by decide
      rw [List.length_append, List.length_take, h3]
      omega

/-- C10, as the code has it: `_preparePropertyData` with the default limit returns one
record for each of the first `min n 3` input records, in input order; it copies
`building_name`, `property_type`, `location_address`, `price` and `area_sqft` unchanged,
keeps the first 5 amenities (none when `amenities` is not an array), and makes
`description` the input when it has at most 150 code units, its first 150 code units
followed by `...` when it is longer, and empty when absent, so at most 153 code units.
`_prepareLocationData` with the default limit returns the first `min n 5` records
unchanged. -/
theorem prepare_data_bounds :
    (∀ properties : List Property,
      (_preparePropertyData properties 3).length = min properties.length 3 ∧
      ∀ (i : Nat) (p : Property), i < 3 → properties[i]? = some p →
        ∃ q, (_preparePropertyData properties 3)[i]? = some q ∧
          q.building_name = p.building_name ∧ q.property_type = p.property_type ∧
          q.location_address = p.location_address ∧ q.price = p.price ∧
          q.area_sqft = p.area_sqft ∧
          q.amenities = (match p.amenities with
            | some a => a.take 5
            | none => []) ∧
          q.amenities.length ≤ 5 ∧
          q.description = (match p.description with
            | some d => if d.length ≤ 150 then d else d.take 150 ++ lit "..."
            | none => []) ∧
          q.description.length ≤ 153) ∧
    (∀ (α : Type) (locations : List α),
      (_prepareLocationData locations 5).length = min locations.length 5 ∧
      ∀ i, i < 5 → (_prepareLocationData locations 5)[i]? = locations[i]?) := by
  constructor
  · intro properties
    refine ⟨by simp [_preparePropertyData, Nat.min_comm], ?_⟩
    intro i p hi hp
    refine ⟨{ building_name := p.building_name
              property_type := p.property_type
              location_address := p.location_address
              price := p.price
              area_sqft := p.area_sqft
              amenities :=
                match p.amenities with
                | some a => a.take 5
                | none => []
              description := prepareDescription p.description },
      ?_, rfl, rfl, rfl, rfl, rfl, rfl, ?_, ?_, prepareDescription_length p.description⟩
    · simp [_preparePropertyData, List.getElem?_take_of_lt hi, hp]
    · cases p.amenities with
      | none => simp
      | some a => simp only [List.length_take]; omega
    · cases hd : p.description with
      | none => rfl
      | some d => exact prepareDescription_some d
  · intro α locations
    refine ⟨by simp [_prepareLocationData, Nat.min_comm], ?_⟩
    intro i hi
    simp [_prepareLocationData, List.getElem?_take_of_lt hi]

/-- C10 for a record with a 151-unit description and seven amenities. -/
theorem prepare_data_bounds_witness :
    ∃ q, (_preparePropertyData [villa] 3)[0]? = some q ∧
      q.amenities.length ≤ 5 ∧ q.description.length ≤ 153 := by
  obtain ⟨q, hq, _, _, _, _, _, _, ha, _, hd⟩ :=
    (prepare_data_bounds.1 [villa]).2 0 villa (by decide) rfl
  exact ⟨q, hq, ha, hd⟩

/-- C10 as stated fails: a `building_name` of 200 code units is returned at its full
length by `_preparePropertyData`, and `_prepareLocationData` returns a 200-unit string of a
location record unchanged. -/
theorem prepare_data_copies_long_strings :
    (_preparePropertyData [tower] 3).map (fun q => q.building_name) = [.str longName] ∧
    longName.length = 200 ∧
    _prepareLocationData [longName] 5 = [longName] := by
  exact ⟨rfl, List.length_replicate 200 97, rfl⟩

end AIproperty
